import Mathlib

/-! Verification of the episode-replay controller.

A shallow embedding of the episode-replay subsystem of this repository
(`replay_all_episodes.py`, with the reset path of `replay_with_real_robot.py`),
together with theorems settling the specification claims about it.

The embedding erases wall-clock time (sleeps) and models the concurrent
input-listener thread by an explicit *schedule*: a function assigning to every
controller read-point ("tick") the list of operator input lines the listener
processed before that read.  Every read of the shared flags by the controller
is one tick, so every real interleaving of listener writes with controller
reads corresponds to some schedule.
-/

namespace Gr00tReplay

/-- The shared replay state (`self.is_paused`, `self.should_stop`,
`self.current_episode` attributes of `EpisodeReplayer`), plus `listener_done`
recording that the listener thread's `while` loop has exited (via `break` or
EOF); once set, the listener processes no further input for the rest of the
run (the thread is started once, in `run`). -/
structure Flags where
  is_paused : Bool
  should_stop : Bool
  listener_done : Bool
  current_episode : Int
deriving DecidableEq, Repr

/-- One interaction of the listener with its input stream: a line of text
(already `.strip().lower()`-normalized, as the source does before matching),
end of input (`EOFError`), or `KeyboardInterrupt`. -/
inductive Line where
  | cmd (s : String)
  | eof
  | interrupt
deriving DecidableEq, Repr

/-- One iteration of the listener thread's loop in
`EpisodeReplayer.start_input_listener` (replay_all_episodes.py, lines
121-154): guard `while not self.should_stop`, then dispatch on the command
string.  `q`/`quit` sets `should_stop`; `p`/`pause` toggles `is_paused`;
`n`/`next` clears `is_paused` when paused; `s`/`skip` only breaks the
listener loop; `h`/`help` prints; anything else prints "Unknown command".
`EOFError` breaks the loop; `KeyboardInterrupt` sets `should_stop` and
breaks. -/
def processLine (f : Flags) (l : Line) : Flags :=
  if f.listener_done || f.should_stop then f
  else
    match l with
    | .eof => { f with listener_done := true }
    | .interrupt => { f with should_stop := true, listener_done := true }
    | .cmd c =>
      if c = "q" ∨ c = "quit" then { f with should_stop := true }
      else if c = "p" ∨ c = "pause" then { f with is_paused := !f.is_paused }
      else if c = "n" ∨ c = "next" then
        if f.is_paused then { f with is_paused := false } else f
      else if c = "s" ∨ c = "skip" then { f with listener_done := true }
      else if c = "h" ∨ c = "help" then f
      else f

/-- The effect on the shared state of a batch of listener iterations that ran
between two controller read-points. -/
def applyLines (f : Flags) (ls : List Line) : Flags :=
  ls.foldl processLine f

/-- Command strings the listener dispatches on (including `r`/`reset`, which
only the real-robot variant handles; in `replay_all_episodes.py` it falls
through to the unknown-command branch, which also has no state effect). -/
def recognizedCommands : List String :=
  ["h", "help", "p", "pause", "n", "next", "s", "skip", "q", "quit", "r", "reset"]

/-- Observable gateway events of a run: per-episode dataset fetch
(`LeRobotDataset(..., episodes=[episode_idx])`), one `robot.send_action`
call tagged with its success, and `robot.disconnect()`. -/
inductive Ev where
  | fetch (e : Int)
  | send (e : Int) (fi : Nat) (ok : Bool)
  | disconnect
deriving DecidableEq, Repr

/-- How one episode's frame loop ended: all frames sent, early return because
`should_stop` was observed, or `robot.send_action` raised at frame `fi`. -/
inductive FrameOut where
  | finished
  | stopped
  | sendError (fi : Nat)
deriving DecidableEq, Repr

/-- The pause-poll loop `while self.is_paused and not self.should_stop:
time.sleep(0.1)` (replay_all_episodes.py, lines 194-195).  Each guard
evaluation is one read of the shared flags (one tick); `fuel` bounds the
number of polls so the function is total — `none` means the loop was still
polling after `fuel` ticks. -/
def pauseWait (sched : Nat → List Line) : Nat → Nat → Flags → Option (Nat × Flags)
  | 0, _, _ => none
  | fuel + 1, t, f =>
    let f1 := applyLines f (sched t)
    if f1.is_paused && !f1.should_stop then pauseWait sched fuel (t + 1) f1
    else some (t + 1, f1)

/-- The frame loop of `EpisodeReplayer.replay_single_episode`
(replay_all_episodes.py, lines 188-219) over the remaining frame indices:
check `should_stop` (return `False`), run the pause-poll loop, re-check
`should_stop`, build the named-target action and call
`robot.send_action` — which may raise, propagating out of the loop — then
`busy_wait` to hold the cadence (erased here). -/
def replayFrames (sched : Nat → List Line) (sendOk : Int → Nat → Bool) (fuel : Nat)
    (e : Int) : List Nat → Nat → Flags → Option (Nat × Flags × List Ev × FrameOut)
  | [], t, f => some (t, f, [], .finished)
  | fi :: rest, t, f =>
    let f1 := applyLines f (sched t)
    if f1.should_stop then some (t + 1, f1, [], .stopped)
    else
      match pauseWait sched fuel (t + 1) f1 with
      | none => none
      | some (t2, f2) =>
        let f3 := applyLines f2 (sched t2)
        if f3.should_stop then some (t2 + 1, f3, [], .stopped)
        else if sendOk e fi then
          match replayFrames sched sendOk fuel e rest (t2 + 1) f3 with
          | none => none
          | some (t4, f4, evs, out) => some (t4, f4, .send e fi true :: evs, out)
        else
          some (t2 + 1, f3, [.send e fi false], .sendError fi)

/-- The wait-for-advance loop between episodes when `auto_advance` is off
(replay_all_episodes.py, lines 254-257): `while not self.should_stop:
time.sleep(0.1); if not self.is_paused: break`.  Two flag reads (ticks) per
iteration; `fuel` bounds the polls. -/
def betweenWait (sched : Nat → List Line) : Nat → Nat → Flags → Option (Nat × Flags)
  | 0, _, _ => none
  | fuel + 1, t, f =>
    let f1 := applyLines f (sched t)
    if f1.should_stop then some (t + 1, f1)
    else
      let f2 := applyLines f1 (sched (t + 1))
      if !f2.is_paused then some (t + 2, f2)
      else betweenWait sched fuel (t + 2) f2

/-- How the episode loop ended: ran off the end of the range or broke out of
an episode (`.normal` — the final `should_stop` read decides the banner), or
a `send_action` exception propagated from episode `e`, frame `fi`. -/
inductive LoopOut where
  | normal
  | sendFail (e : Int) (fi : Nat)
deriving DecidableEq, Repr

/-- The episode loop of `EpisodeReplayer.run` (replay_all_episodes.py, lines
233-257): for each episode index, check `should_stop` (break), fetch the
episode's data and replay its frames, break if that returned `False`, and if
the episode is not the last and `should_stop` is still unset either sleep
`episode_delay` (`auto_advance`) or poll in `betweenWait`.  A
`send_action` exception propagates immediately as `.sendFail`. -/
def episodeLoop (sched : Nat → List Line) (sendOk : Int → Nat → Bool)
    (numFrames : Int → Nat) (fuel : Nat) (autoAdvance : Bool) (endEp : Int) :
    List Int → Nat → Flags → Option (Nat × Flags × List Ev × LoopOut)
  | [], t, f => some (t, f, [], .normal)
  | e :: rest, t, f =>
    let f1 := applyLines f (sched t)
    if f1.should_stop then some (t + 1, f1, [], .normal)
    else
      match replayFrames sched sendOk fuel e (List.range (numFrames e)) (t + 1) f1 with
      | none => none
      | some (t2, f2, evs, out) =>
        match out with
        | .sendError fi => some (t2, f2, Ev.fetch e :: evs, .sendFail e fi)
        | .stopped => some (t2, f2, Ev.fetch e :: evs, .normal)
        | .finished =>
          if e < endEp then
            let f3 := applyLines f2 (sched t2)
            if f3.should_stop then
              match episodeLoop sched sendOk numFrames fuel autoAdvance endEp rest (t2 + 1) f3 with
              | none => none
              | some (t5, f5, evs2, out2) => some (t5, f5, Ev.fetch e :: (evs ++ evs2), out2)
            else if autoAdvance then
              match episodeLoop sched sendOk numFrames fuel autoAdvance endEp rest (t2 + 1) f3 with
              | none => none
              | some (t5, f5, evs2, out2) => some (t5, f5, Ev.fetch e :: (evs ++ evs2), out2)
            else
              match betweenWait sched fuel (t2 + 1) f3 with
              | none => none
              | some (t4, f4) =>
                match episodeLoop sched sendOk numFrames fuel autoAdvance endEp rest t4 f4 with
                | none => none
                | some (t5, f5, evs2, out2) => some (t5, f5, Ev.fetch e :: (evs ++ evs2), out2)
          else
            match episodeLoop sched sendOk numFrames fuel autoAdvance endEp rest t2 f2 with
            | none => none
            | some (t5, f5, evs2, out2) => some (t5, f5, Ev.fetch e :: (evs ++ evs2), out2)

/-- Line 100 of replay_all_episodes.py: `end_ep = self.cfg.dataset.end_episode
if self.cfg.dataset.end_episode >= 0 else self.total_episodes - 1`. -/
def initialEnd (endEp total : Int) : Int :=
  if 0 ≤ endEp then endEp else total - 1

/-- Lines 105-106: `if end_ep >= self.total_episodes: end_ep =
self.total_episodes - 1` applied to the initial end. -/
def clampedEnd (endEp total : Int) : Int :=
  if total ≤ initialEnd endEp total then total - 1 else initialEnd endEp total

/-- Episode-range normalization and validation in
`EpisodeReplayer.setup_robot_and_dataset` (replay_all_episodes.py, lines
97-108): a negative configured end selects `total - 1` (`initialEnd`);
`start >= total` raises; `end >= total` is clamped to `total - 1`
(`clampedEnd`); `start > end` raises.  (In the source the `start >= total`
check sits between the two `end_ep` assignments; all three are pure, so the
order is observationally irrelevant.) -/
def normalizeRange (startEp endEp total : Int) : Except String (Int × Int) :=
  if total ≤ startEp then .error "start episode out of range"
  else if clampedEnd endEp total < startEp then
    .error "start episode greater than end episode"
  else .ok (startEp, clampedEnd endEp total)

/-- `Except` success as a boolean. -/
def isOkE : Except ε α → Bool
  | .ok _ => true
  | .error _ => false

/-- The environment a run interacts with: whether `robot.connect()` succeeds
(and `robot.is_connected` reports true), the dataset's episode count, each
episode's frame count, and which `send_action` calls succeed. -/
structure Env where
  connectOk : Bool
  totalEpisodes : Nat
  numFrames : Int → Nat
  sendOk : Int → Nat → Bool

/-- The replay configuration (`DatasetReplayConfig` + `ReplayAllConfig`):
target fps, configured episode range, auto-advance, inter-episode delay.
`fps` and `episodeDelay` only affect wall-clock pacing, which the event
semantics erases. -/
structure Cfg where
  fps : ℚ
  startEp : Int
  endEp : Int
  autoAdvance : Bool
  episodeDelay : ℚ

/-- Why a run failed: the pre-loop connect check raised, range validation
raised, or a `send_action` exception propagated from episode `e`, frame
`fi`. -/
inductive RunErr where
  | connectFailed
  | rangeError
  | sendFailed (e : Int) (fi : Nat)
deriving DecidableEq, Repr

/-- Terminal outcome of `EpisodeReplayer.run`: the completion banner, the
stopped-by-user banner, or the `except Exception` path. -/
inductive RunResult where
  | completed
  | stoppedByUser
  | failed (err : RunErr)
deriving DecidableEq, Repr

/-- Shared state at run start: `__init__` sets `is_paused = False`,
`should_stop = False`, `current_episode = cfg.dataset.start_episode`. -/
def initFlags (startEp : Int) : Flags :=
  { is_paused := false, should_stop := false, listener_done := false
    current_episode := startEp }

/-- The ascending episode indices `range(start_ep, end_ep + 1)`. -/
def episodeRange (s e : Int) : List Int :=
  (List.range (e + 1 - s).toNat).map (fun i => s + Int.ofNat i)

/-- `EpisodeReplayer.run` (replay_all_episodes.py, lines 223-273) as an event
semantics: setup (connect — fatal if it fails — then range validation), the
episode loop, the final `should_stop` read choosing the completion or
stopped banner, and the `finally` block calling `robot.disconnect()` exactly
when `robot.is_connected`.  Returns the ordered gateway event trace and the
terminal outcome; `none` means a poll loop exceeded `fuel`. -/
def run (sched : Nat → List Line) (fuel : Nat) (env : Env) (cfg : Cfg) :
    Option (List Ev × RunResult) :=
  if !env.connectOk then some ([], .failed .connectFailed)
  else
    match normalizeRange cfg.startEp cfg.endEp (Int.ofNat env.totalEpisodes) with
    | .error _ => some ([.disconnect], .failed .rangeError)
    | .ok (s, en) =>
      match episodeLoop sched env.sendOk env.numFrames fuel cfg.autoAdvance en
          (episodeRange s en) 0 (initFlags s) with
      | none => none
      | some (t, f, evs, out) =>
        match out with
        | .sendFail ep fi => some (evs ++ [.disconnect], .failed (.sendFailed ep fi))
        | .normal =>
          if (applyLines f (sched t)).should_stop then
            some (evs ++ [.disconnect], .stoppedByUser)
          else some (evs ++ [.disconnect], .completed)

/-- The frame scheduler (demo_episode_replay.py, lines 182-184;
replay_moving_tape_dataset.py, lines 146-149): `sleep_time = max(1 /
self.dataset.fps - dt_s, 0)`, over exact rationals. -/
def frameDelay (fps elapsed : ℚ) : ℚ :=
  max (1 / fps - elapsed) 0

/-- Predicate picking the `send_action` events out of a trace. -/
def isSend : Ev → Bool
  | .send _ _ _ => true
  | _ => false

/-! The reset path of `replay_with_real_robot.py`, for the serialization
claim.  `RealRobotEpisodeReplayer.reset_robot` (lines 120-145) is invoked on
the listener thread and calls `self.robot.send_action(home_action)` directly;
`replay_single_episode` (lines 202-207) calls `self.robot.send_action(action)`
on the main thread.  Neither path contains any lock acquisition, so the two
`send_action` calls are two critical sections with no synchronization. -/

/-- Alphabet of the two-thread gateway interaction: entering and leaving a
`send_action` call (`who = false` for the controller's per-frame send,
`who = true` for the listener's reset send), plus a lock-acquire/release
event that exists in the alphabet but is emitted by neither source path. -/
inductive ThreadEv where
  | acquire
  | release
  | sendStart (who : Bool)
  | sendEnd (who : Bool)
deriving DecidableEq, Repr

/-- The controller's gateway interaction for one frame
(`self.robot.send_action(action)` in `replay_single_episode`, lines 202-207):
enter send, leave send; no lock events appear in the source. -/
def frameSendPath : List ThreadEv :=
  [.sendStart false, .sendEnd false]

/-- The listener's reset interaction (`reset_robot`, lines 120-145): build
`home_action`, `self.robot.send_action(home_action)`, then `time.sleep(2.0)`;
no lock events appear in the source. -/
def resetSendPath : List ThreadEv :=
  [.sendStart true, .sendEnd true]

/-- `Interleave xs ys zs`: `zs` is an order-preserving interleaving of the two
threads' event sequences `xs` and `ys`.  Because neither source path takes a
lock, every interleaving is reachable. -/
inductive Interleave : List ThreadEv → List ThreadEv → List ThreadEv → Prop where
  | nil : Interleave [] [] []
  | left {x xs ys zs} : Interleave xs ys zs → Interleave (x :: xs) ys (x :: zs)
  | right {y xs ys zs} : Interleave xs ys zs → Interleave xs (y :: ys) (y :: zs)

/-- Scan of a trace checking that the two `send_action` critical sections
never overlap: `cOpen`/`rOpen` track whether the controller's respectively
the reset's send is in flight. -/
def sendsExclusiveGo : Bool → Bool → List ThreadEv → Bool
  | _, _, [] => true
  | cOpen, rOpen, ev :: rest =>
    match ev with
    | .sendStart false => if rOpen then false else sendsExclusiveGo true rOpen rest
    | .sendEnd false => sendsExclusiveGo false rOpen rest
    | .sendStart true => if cOpen then false else sendsExclusiveGo cOpen true rest
    | .sendEnd true => sendsExclusiveGo cOpen false rest
    | _ => sendsExclusiveGo cOpen rOpen rest

/-- A trace keeps the two sends mutually exclusive. -/
def sendsExclusive (tr : List ThreadEv) : Bool :=
  sendsExclusiveGo false false tr

/-- The interleaving in which the listener's reset send starts while the
controller's frame send is still in flight. -/
def overlapTrace : List ThreadEv :=
  [.sendStart false, .sendStart true, .sendEnd false, .sendEnd true]

/-! Basic lemmas about the listener handler and the stop flag -/

/-- With `should_stop` set, the listener's loop guard `while not
self.should_stop` fails, so an input line has no effect. -/
theorem processLine_stop_id (f : Flags) (l : Line) (h : f.should_stop = true) :
    processLine f l = f := by
  simp [processLine, h]

/-- With `should_stop` set, any batch of listener iterations leaves the state
unchanged. -/
theorem applyLines_stop_id (ls : List Line) (f : Flags) (h : f.should_stop = true) :
    applyLines f ls = f := by
  induction ls with
  | nil => rfl
  | cons l ls ih =>
    show applyLines (processLine f l) ls = f
    rw [processLine_stop_id f l h]
    exact ih

/-- The pause-poll loop exits on its first guard read once `should_stop`
holds. -/
theorem pauseWait_stop (sched : Nat → List Line) (fuel t : Nat) (f : Flags)
    (h : f.should_stop = true) (hf : 1 ≤ fuel) :
    pauseWait sched fuel t f = some (t + 1, f) := by
  cases fuel with
  | zero => omega
  | succ n =>
    unfold pauseWait
    rw [applyLines_stop_id _ _ h]
    simp [h]

/-- The wait-for-advance loop exits on its first guard read once
`should_stop` holds. -/
theorem betweenWait_stop (sched : Nat → List Line) (fuel t : Nat) (f : Flags)
    (h : f.should_stop = true) (hf : 1 ≤ fuel) :
    betweenWait sched fuel t f = some (t + 1, f) := by
  cases fuel with
  | zero => omega
  | succ n =>
    unfold betweenWait
    rw [applyLines_stop_id _ _ h]
    simp [h]

/-- With `should_stop` already set at the top of a frame iteration, the frame
loop returns at once with no gateway events. -/
theorem replayFrames_stop (sched : Nat → List Line) (sendOk : Int → Nat → Bool)
    (fuel : Nat) (e : Int) (frames : List Nat) (t : Nat) (f : Flags)
    (h : f.should_stop = true) :
    (replayFrames sched sendOk fuel e frames t f).map (fun r => r.2.2.1) = some [] := by
  cases frames with
  | nil => rfl
  | cons fi rest =>
    unfold replayFrames
    rw [applyLines_stop_id _ _ h]
    simp [h]

/-- With `should_stop` already set at the top of the episode loop, the loop
breaks at once with no gateway events. -/
theorem episodeLoop_stop (sched : Nat → List Line) (sendOk : Int → Nat → Bool)
    (numFrames : Int → Nat) (fuel : Nat) (auto : Bool) (endEp : Int)
    (es : List Int) (t : Nat) (f : Flags) (h : f.should_stop = true) :
    (episodeLoop sched sendOk numFrames fuel auto endEp es t f).map (fun r => r.2.2) =
      some ([], LoopOut.normal) := by
  cases es with
  | nil => rfl
  | cons e rest =>
    unfold episodeLoop
    rw [applyLines_stop_id _ _ h]
    simp [h]

/-- With `should_stop` set on entry, the episode loop's resulting shared
state still has it set (the controller never writes the flag). -/
theorem episodeLoop_stop_preserved (sched : Nat → List Line)
    (sendOk : Int → Nat → Bool) (numFrames : Int → Nat) (fuel : Nat)
    (auto : Bool) (endEp : Int) (es : List Int) (t t' : Nat) (f f' : Flags)
    (evs : List Ev) (out : LoopOut)
    (hrun : episodeLoop sched sendOk numFrames fuel auto endEp es t f =
      some (t', f', evs, out))
    (h : f.should_stop = true) : f'.should_stop = true := by
  cases es with
  | nil =>
    simp only [episodeLoop, Option.some.injEq, Prod.mk.injEq] at hrun
    rw [← hrun.2.1]
    exact h
  | cons e rest =>
    unfold episodeLoop at hrun
    rw [applyLines_stop_id _ _ h] at hrun
    simp [h] at hrun
    rw [← hrun.2.1]
    exact h

/-! Trace lemmas for the frame loop. -/

/-- Every event the frame loop emits is a `send` of its own episode. -/
theorem replayFrames_events (sched : Nat → List Line) (sendOk : Int → Nat → Bool)
    (fuel : Nat) (e : Int) :
    ∀ (frames : List Nat) (t : Nat) (f : Flags) (t' : Nat) (f' : Flags)
      (evs : List Ev) (out : FrameOut),
      replayFrames sched sendOk fuel e frames t f = some (t', f', evs, out) →
      ∀ ev ∈ evs, ∃ fi ok, ev = Ev.send e fi ok := by
  intro frames
  induction frames with
  | nil =>
    intro t f t' f' evs out hrun ev hmem
    simp only [replayFrames, Option.some.injEq, Prod.mk.injEq] at hrun
    rw [← hrun.2.2.1] at hmem
    simp at hmem
  | cons fi rest ih =>
    intro t f t' f' evs out hrun ev hmem
    unfold replayFrames at hrun
    by_cases h1 : (applyLines f (sched t)).should_stop
    · simp only [h1, if_true] at hrun
      simp only [Option.some.injEq, Prod.mk.injEq] at hrun
      rw [← hrun.2.2.1] at hmem
      simp at hmem
    · simp only [h1, Bool.false_eq_true, if_false] at hrun
      cases hpw : pauseWait sched fuel (t + 1) (applyLines f (sched t)) with
      | none => rw [hpw] at hrun; exact absurd hrun (by simp)
      | some p =>
        obtain ⟨t2, f2⟩ := p
        rw [hpw] at hrun
        by_cases h2 : (applyLines f2 (sched t2)).should_stop
        · simp only [h2, if_true, Option.some.injEq, Prod.mk.injEq] at hrun
          rw [← hrun.2.2.1] at hmem
          simp at hmem
        · simp only [h2, Bool.false_eq_true, if_false] at hrun
          by_cases h3 : sendOk e fi
          · simp only [h3, if_true] at hrun
            cases hrec : replayFrames sched sendOk fuel e rest (t2 + 1)
                (applyLines f2 (sched t2)) with
            | none => rw [hrec] at hrun; exact absurd hrun (by simp)
            | some q =>
              obtain ⟨t4, f4, evs0, out0⟩ := q
              rw [hrec] at hrun
              simp only [Option.some.injEq, Prod.mk.injEq] at hrun
              rw [← hrun.2.2.1] at hmem
              rcases List.mem_cons.mp hmem with hhead | htail
              · exact ⟨fi, true, hhead⟩
              · exact ih (t2 + 1) (applyLines f2 (sched t2)) t4 f4 evs0 out0 hrec ev htail
          · simp only [h3, Bool.false_eq_true, if_false, Option.some.injEq,
              Prod.mk.injEq] at hrun
            rw [← hrun.2.2.1] at hmem
            rw [List.mem_singleton] at hmem
            exact ⟨fi, false, hmem⟩

/-- A failed `send` in the frame loop's trace forces the loop's outcome: the
`send_action` exception at that frame ends the episode (and, propagating,
the run). -/
theorem replayFrames_false_send (sched : Nat → List Line) (sendOk : Int → Nat → Bool)
    (fuel : Nat) (e : Int) :
    ∀ (frames : List Nat) (t : Nat) (f : Flags) (t' : Nat) (f' : Flags)
      (evs : List Ev) (out : FrameOut),
      replayFrames sched sendOk fuel e frames t f = some (t', f', evs, out) →
      ∀ e2 fi, Ev.send e2 fi false ∈ evs → out = .sendError fi := by
  intro frames
  induction frames with
  | nil =>
    intro t f t' f' evs out hrun e2 fi hmem
    simp only [replayFrames, Option.some.injEq, Prod.mk.injEq] at hrun
    rw [← hrun.2.2.1] at hmem
    simp at hmem
  | cons fi0 rest ih =>
    intro t f t' f' evs out hrun e2 fi hmem
    unfold replayFrames at hrun
    by_cases h1 : (applyLines f (sched t)).should_stop
    · simp only [h1, if_true, Option.some.injEq, Prod.mk.injEq] at hrun
      rw [← hrun.2.2.1] at hmem
      simp at hmem
    · simp only [h1, Bool.false_eq_true, if_false] at hrun
      cases hpw : pauseWait sched fuel (t + 1) (applyLines f (sched t)) with
      | none => rw [hpw] at hrun; exact absurd hrun (by simp)
      | some p =>
        obtain ⟨t2, f2⟩ := p
        rw [hpw] at hrun
        by_cases h2 : (applyLines f2 (sched t2)).should_stop
        · simp only [h2, if_true, Option.some.injEq, Prod.mk.injEq] at hrun
          rw [← hrun.2.2.1] at hmem
          simp at hmem
        · simp only [h2, Bool.false_eq_true, if_false] at hrun
          by_cases h3 : sendOk e fi0
          · simp only [h3, if_true] at hrun
            cases hrec : replayFrames sched sendOk fuel e rest (t2 + 1)
                (applyLines f2 (sched t2)) with
            | none => rw [hrec] at hrun; exact absurd hrun (by simp)
            | some q =>
              obtain ⟨t4, f4, evs0, out0⟩ := q
              rw [hrec] at hrun
              simp only [Option.some.injEq, Prod.mk.injEq] at hrun
              rw [← hrun.2.2.1] at hmem
              rcases List.mem_cons.mp hmem with hhead | htail
              · exact absurd hhead (by simp)
              · rw [← hrun.2.2.2]
                exact ih (t2 + 1) (applyLines f2 (sched t2)) t4 f4 evs0 out0 hrec e2 fi htail
          · simp only [h3, Bool.false_eq_true, if_false, Option.some.injEq,
              Prod.mk.injEq] at hrun
            rw [← hrun.2.2.1] at hmem
            rw [List.mem_singleton] at hmem
            rw [← hrun.2.2.2]
            injection hmem with _ h5 _
            rw [h5]

/-! Trace lemmas for the episode loop. -/

/-- Case analysis on one iteration of the episode loop: either the head
`should_stop` check broke out with no events, or the episode was fetched and
its frame loop ran, after which the iteration either propagated a send
failure, broke on an early stop, or recursed into the remaining episodes. -/
theorem episodeLoop_cons (sched : Nat → List Line) (sendOk : Int → Nat → Bool)
    (numFrames : Int → Nat) (fuel : Nat) (auto : Bool) (endEp e : Int)
    (rest : List Int) (t t' : Nat) (f f' : Flags) (evs : List Ev) (out : LoopOut)
    (hrun : episodeLoop sched sendOk numFrames fuel auto endEp (e :: rest) t f =
      some (t', f', evs, out)) :
    (evs = [] ∧ out = .normal) ∨
    (∃ t2 f2 evsF outF,
      replayFrames sched sendOk fuel e (List.range (numFrames e)) (t + 1)
          (applyLines f (sched t)) = some (t2, f2, evsF, outF) ∧
      ((∃ fi, outF = .sendError fi ∧ evs = Ev.fetch e :: evsF ∧ out = .sendFail e fi) ∨
       (outF = .stopped ∧ evs = Ev.fetch e :: evsF ∧ out = .normal) ∨
       (outF = .finished ∧ ∃ t0 f0 t5 f5 evs2,
         episodeLoop sched sendOk numFrames fuel auto endEp rest t0 f0 =
           some (t5, f5, evs2, out) ∧ evs = Ev.fetch e :: (evsF ++ evs2)))) := by
  unfold episodeLoop at hrun
  by_cases h1 : (applyLines f (sched t)).should_stop
  · simp only [h1, if_true, Option.some.injEq, Prod.mk.injEq] at hrun
    exact Or.inl ⟨hrun.2.2.1.symm, hrun.2.2.2.symm⟩
  · simp only [h1, Bool.false_eq_true, if_false] at hrun
    cases hrf : replayFrames sched sendOk fuel e (List.range (numFrames e)) (t + 1)
        (applyLines f (sched t)) with
    | none => rw [hrf] at hrun; exact absurd hrun (by simp)
    | some q =>
      obtain ⟨t2, f2, evsF, outF⟩ := q
      rw [hrf] at hrun
      refine Or.inr ⟨t2, f2, evsF, outF, rfl, ?_⟩
      cases outF with
      | sendError fi =>
        simp only [Option.some.injEq, Prod.mk.injEq] at hrun
        exact Or.inl ⟨fi, rfl, hrun.2.2.1.symm, hrun.2.2.2.symm⟩
      | stopped =>
        simp only [Option.some.injEq, Prod.mk.injEq] at hrun
        exact Or.inr (Or.inl ⟨rfl, hrun.2.2.1.symm, hrun.2.2.2.symm⟩)
      | finished =>
        refine Or.inr (Or.inr ⟨rfl, ?_⟩)
        by_cases h4 : e < endEp
        · simp only [h4, if_true] at hrun
          by_cases h5 : (applyLines f2 (sched t2)).should_stop
          · simp only [h5, if_true] at hrun
            cases hel : episodeLoop sched sendOk numFrames fuel auto endEp rest (t2 + 1)
                (applyLines f2 (sched t2)) with
            | none => rw [hel] at hrun; exact absurd hrun (by simp)
            | some q2 =>
              obtain ⟨t5, f5, evs2, out2⟩ := q2
              rw [hel] at hrun
              simp only [Option.some.injEq, Prod.mk.injEq] at hrun
              rw [hrun.2.2.2] at hel
              exact ⟨t2 + 1, applyLines f2 (sched t2), t5, f5, evs2, hel,
                hrun.2.2.1.symm⟩
          · simp only [h5, Bool.false_eq_true, if_false] at hrun
            by_cases h6 : auto
            · simp only [h6, eq_self_iff_true, if_true] at hrun
              rw [h6]
              cases hel : episodeLoop sched sendOk numFrames fuel true endEp rest (t2 + 1)
                  (applyLines f2 (sched t2)) with
              | none => rw [hel] at hrun; exact absurd hrun (by simp)
              | some q2 =>
                obtain ⟨t5, f5, evs2, out2⟩ := q2
                rw [hel] at hrun
                simp only [Option.some.injEq, Prod.mk.injEq] at hrun
                rw [hrun.2.2.2] at hel
                exact ⟨t2 + 1, applyLines f2 (sched t2), t5, f5, evs2, hel,
                  hrun.2.2.1.symm⟩
            · rw [Bool.not_eq_true] at h6
              simp only [h6, Bool.false_eq_true, if_false] at hrun
              rw [h6]
              cases hbw : betweenWait sched fuel (t2 + 1) (applyLines f2 (sched t2)) with
              | none => rw [hbw] at hrun; exact absurd hrun (by simp)
              | some p =>
                obtain ⟨t4, f4⟩ := p
                rw [hbw] at hrun
                cases hel : episodeLoop sched sendOk numFrames fuel false endEp rest t4 f4 with
                | none => simp only [hel] at hrun; exact absurd hrun (by simp)
                | some q2 =>
                  obtain ⟨t5, f5, evs2, out2⟩ := q2
                  simp only [hel, Option.some.injEq, Prod.mk.injEq] at hrun
                  rw [hrun.2.2.2] at hel
                  exact ⟨t4, f4, t5, f5, evs2, hel, hrun.2.2.1.symm⟩
        · simp only [h4, if_false] at hrun
          cases hel : episodeLoop sched sendOk numFrames fuel auto endEp rest t2 f2 with
          | none => rw [hel] at hrun; exact absurd hrun (by simp)
          | some q2 =>
            obtain ⟨t5, f5, evs2, out2⟩ := q2
            rw [hel] at hrun
            simp only [Option.some.injEq, Prod.mk.injEq] at hrun
            rw [hrun.2.2.2] at hel
            exact ⟨t2, f2, t5, f5, evs2, hel, hrun.2.2.1.symm⟩

/-- Every event the episode loop emits is a fetch or a send of one of its
episode indices; in particular the loop never emits `disconnect`. -/
theorem episodeLoop_events (sched : Nat → List Line) (sendOk : Int → Nat → Bool)
    (numFrames : Int → Nat) (fuel : Nat) (auto : Bool) (endEp : Int) :
    ∀ (es : List Int) (t : Nat) (f : Flags) (t' : Nat) (f' : Flags)
      (evs : List Ev) (out : LoopOut),
      episodeLoop sched sendOk numFrames fuel auto endEp es t f = some (t', f', evs, out) →
      ∀ ev ∈ evs, ∃ e, e ∈ es ∧ (ev = Ev.fetch e ∨ ∃ fi ok, ev = Ev.send e fi ok) := by
  intro es
  induction es with
  | nil =>
    intro t f t' f' evs out hrun ev hmem
    simp only [episodeLoop, Option.some.injEq, Prod.mk.injEq] at hrun
    rw [← hrun.2.2.1] at hmem
    simp at hmem
  | cons e rest ih =>
    intro t f t' f' evs out hrun ev hmem
    rcases episodeLoop_cons sched sendOk numFrames fuel auto endEp e rest t t' f f'
        evs out hrun with ⟨hevs, -⟩ | ⟨t2, f2, evsF, outF, hrf, hcase⟩
    · rw [hevs] at hmem
      simp at hmem
    · have hF : ∀ ev ∈ evsF, ∃ fi ok, ev = Ev.send e fi ok :=
        replayFrames_events sched sendOk fuel e _ _ _ _ _ _ _ hrf
      rcases hcase with ⟨fi, -, hevs, -⟩ | ⟨-, hevs, -⟩ |
        ⟨-, t0, f0, t5, f5, evs2, hel, hevs⟩
      · rw [hevs] at hmem
        rcases List.mem_cons.mp hmem with hhead | htail
        · exact ⟨e, List.mem_cons_self e rest, Or.inl hhead⟩
        · obtain ⟨fi2, ok2, hev⟩ := hF ev htail
          exact ⟨e, List.mem_cons_self e rest, Or.inr ⟨fi2, ok2, hev⟩⟩
      · rw [hevs] at hmem
        rcases List.mem_cons.mp hmem with hhead | htail
        · exact ⟨e, List.mem_cons_self e rest, Or.inl hhead⟩
        · obtain ⟨fi2, ok2, hev⟩ := hF ev htail
          exact ⟨e, List.mem_cons_self e rest, Or.inr ⟨fi2, ok2, hev⟩⟩
      · rw [hevs] at hmem
        rcases List.mem_cons.mp hmem with hhead | htail
        · exact ⟨e, List.mem_cons_self e rest, Or.inl hhead⟩
        · rcases List.mem_append.mp htail with hF2 | h2
          · obtain ⟨fi2, ok2, hev⟩ := hF ev hF2
            exact ⟨e, List.mem_cons_self e rest, Or.inr ⟨fi2, ok2, hev⟩⟩
          · obtain ⟨e2, he2, hshape⟩ := ih t0 f0 t5 f5 evs2 out hel ev h2
            exact ⟨e2, List.mem_cons_of_mem e he2, hshape⟩

/-- A failed send in the episode loop's trace determines the loop's outcome
(the propagated `send_action` exception), and no episode strictly after the
failing one contributes any send event to the trace. -/
theorem episodeLoop_false_send (sched : Nat → List Line) (sendOk : Int → Nat → Bool)
    (numFrames : Int → Nat) (fuel : Nat) (auto : Bool) (endEp : Int) :
    ∀ (es : List Int) (t : Nat) (f : Flags) (t' : Nat) (f' : Flags)
      (evs : List Ev) (out : LoopOut), es.Pairwise (· < ·) →
      episodeLoop sched sendOk numFrames fuel auto endEp es t f = some (t', f', evs, out) →
      ∀ e2 fi, Ev.send e2 fi false ∈ evs →
        out = .sendFail e2 fi ∧
        ∀ e3 fi3 ok3, e2 < e3 → Ev.send e3 fi3 ok3 ∉ evs := by
  intro es
  induction es with
  | nil =>
    intro t f t' f' evs out hsort hrun e2 fi hmem
    simp only [episodeLoop, Option.some.injEq, Prod.mk.injEq] at hrun
    rw [← hrun.2.2.1] at hmem
    simp at hmem
  | cons e rest ih =>
    intro t f t' f' evs out hsort hrun e2 fi hmem
    rcases episodeLoop_cons sched sendOk numFrames fuel auto endEp e rest t t' f f'
        evs out hrun with ⟨hevs, -⟩ | ⟨t2, f2, evsF, outF, hrf, hcase⟩
    · rw [hevs] at hmem
      simp at hmem
    · have hF : ∀ ev ∈ evsF, ∃ fi ok, ev = Ev.send e fi ok :=
        replayFrames_events sched sendOk fuel e _ _ _ _ _ _ _ hrf
      have hFf : ∀ e4 fi4, Ev.send e4 fi4 false ∈ evsF → outF = .sendError fi4 :=
        replayFrames_false_send sched sendOk fuel e _ _ _ _ _ _ _ hrf
      rcases hcase with ⟨fi0, houtF, hevs, hout⟩ | ⟨houtF, hevs, -⟩ |
        ⟨houtF, t0, f0, t5, f5, evs2, hel, hevs⟩
      · rw [hevs] at hmem
        rcases List.mem_cons.mp hmem with hhead | htail
        · exact absurd hhead (by simp)
        · have he2 : e2 = e := by
            obtain ⟨fi2, ok2, hev⟩ := hF _ htail
            rw [Ev.send.injEq] at hev
            exact hev.1
          have hfi : outF = .sendError fi := hFf e2 fi htail
          rw [houtF] at hfi
          injection hfi with h8
          constructor
          · rw [hout, he2, h8]
          · intro e3 fi3 ok3 hlt hmem3
            rw [hevs] at hmem3
            rcases List.mem_cons.mp hmem3 with hh | ht
            · exact absurd hh (by simp)
            · obtain ⟨fi4, ok4, hev4⟩ := hF _ ht
              injection hev4 with h9 _ _
              rw [he2] at hlt
              rw [h9] at hlt
              exact absurd hlt (lt_irrefl e)
      · rw [hevs] at hmem
        rcases List.mem_cons.mp hmem with hhead | htail
        · exact absurd hhead (by simp)
        · have := hFf e2 fi htail
          rw [houtF] at this
          exact absurd this (by simp)
      · rw [hevs] at hmem
        rcases List.mem_cons.mp hmem with hhead | htail
        · exact absurd hhead (by simp)
        · rcases List.mem_append.mp htail with hF2 | h2
          · have := hFf e2 fi hF2
            rw [houtF] at this
            exact absurd this (by simp)
          · have hrest : rest.Pairwise (· < ·) := (List.pairwise_cons.mp hsort).2
            obtain ⟨hout2, hlater⟩ := ih t0 f0 t5 f5 evs2 out hrest hel e2 fi h2
            have he2mem : e2 ∈ rest := by
              obtain ⟨e4, he4, hshape⟩ :=
                episodeLoop_events sched sendOk numFrames fuel auto endEp rest
                  t0 f0 t5 f5 evs2 out hel _ h2
              rcases hshape with hfetch | ⟨fi4, ok4, hsend⟩
              · exact absurd hfetch (by simp)
              · injection hsend with h7 _ _
                rw [h7]
                exact he4
            have helt : e < e2 := (List.pairwise_cons.mp hsort).1 e2 he2mem
            refine ⟨hout2, ?_⟩
            intro e3 fi3 ok3 hlt hmem3
            rw [hevs] at hmem3
            rcases List.mem_cons.mp hmem3 with hh | ht
            · exact absurd hh (by simp)
            · rcases List.mem_append.mp ht with hF3 | h3
              · obtain ⟨fi4, ok4, hev4⟩ := hF _ hF3
                injection hev4 with h9 _ _
                omega
              · exact hlater e3 fi3 ok3 hlt h3

/-- The episode indices `range(start_ep, end_ep + 1)` are strictly
ascending. -/
theorem episodeRange_pairwise (s e : Int) : (episodeRange s e).Pairwise (· < ·) := by
  unfold episodeRange
  refine (List.pairwise_lt_range _).map _ ?_
  intro a b hab
  simp only [Int.ofNat_eq_natCast]
  omega

/-! Scenario data for the concrete claims. -/

/-- The gateway event trace of Scenario A: 3 episodes of 5 frames, all sends
succeeding, auto-advance, no operator input. -/
def scenarioATrace : List Ev :=
  [.fetch 0,
   .send 0 0 true, .send 0 1 true, .send 0 2 true, .send 0 3 true, .send 0 4 true,
   .fetch 1,
   .send 1 0 true, .send 1 1 true, .send 1 2 true, .send 1 3 true, .send 1 4 true,
   .fetch 2,
   .send 2 0 true, .send 2 1 true, .send 2 2 true, .send 2 3 true, .send 2 4 true,
   .disconnect]

/-- The gateway event trace of Scenario C: 2 episodes of 5 frames with
`send_action` raising at episode 1, frame 3. -/
def scenarioCTrace : List Ev :=
  [.fetch 0,
   .send 0 0 true, .send 0 1 true, .send 0 2 true, .send 0 3 true, .send 0 4 true,
   .fetch 1,
   .send 1 0 true, .send 1 1 true, .send 1 2 true, .send 1 3 false,
   .disconnect]

/-- Operator schedule typing `s` (skip) at the controller's 5th flag read
(mid-episode 0) and `q` (quit) at the 6th. -/
def skipQuitSched : Nat → List Line := fun t =>
  if t = 4 then [.cmd "s"] else if t = 5 then [.cmd "q"] else []

/-- Operator schedule typing only `q` (quit) at the controller's 5th flag
read. -/
def quitOnlySched : Nat → List Line := fun t =>
  if t = 4 then [.cmd "q"] else []

/-! Claim theorems. -/

/-- Claim C1: for a run over 3 episodes of 5 frames each with `fps = 10`,
auto-advance on, zero episode delay, a successfully connecting gateway, every
send succeeding, and no operator input, the controller makes exactly 15
`send` calls in order (episode 0 frames 0-4, then episode 1, then episode 2),
the result is Completed, and `disconnect` is called exactly once, at the very
end of the trace. -/
theorem scenarioA_replay :
    run (fun _ => []) 1 ⟨true, 3, fun _ => 5, fun _ _ => true⟩
        ⟨10, 0, 2, true, 0⟩ = some (scenarioATrace, .completed) ∧
    scenarioATrace.filter isSend =
      [.send 0 0 true, .send 0 1 true, .send 0 2 true, .send 0 3 true, .send 0 4 true,
       .send 1 0 true, .send 1 1 true, .send 1 2 true, .send 1 3 true, .send 1 4 true,
       .send 2 0 true, .send 2 1 true, .send 2 2 true, .send 2 3 true, .send 2 4 true] ∧
    scenarioATrace.countP (fun ev => decide (ev = Ev.disconnect)) = 1 ∧
    scenarioATrace.getLast? = some Ev.disconnect := by
  refine ⟨by decide, by decide, by decide, by decide⟩

/-- Claim C2: in every run in which a `send` fails at episode `e`, frame
`fi` (a failed send event appears in the trace), the run's result is the
failure for exactly that episode and frame (the propagated `send_action`
exception), no send of any strictly later episode appears anywhere in the
trace, and `disconnect` is still called exactly once. -/
theorem send_failure_halts_run (sched : Nat → List Line) (fuel : Nat) (env : Env)
    (cfg : Cfg) (tr : List Ev) (res : RunResult) (e : Int) (fi : Nat)
    (hrun : run sched fuel env cfg = some (tr, res))
    (hmem : Ev.send e fi false ∈ tr) :
    res = .failed (.sendFailed e fi) ∧
    (∀ e2 fi2 ok2, e < e2 → Ev.send e2 fi2 ok2 ∉ tr) ∧
    tr.countP (fun ev => decide (ev = Ev.disconnect)) = 1 := by
  unfold run at hrun
  by_cases hc : env.connectOk
  · simp only [hc, Bool.not_true, Bool.false_eq_true, if_false] at hrun
    cases hnr : normalizeRange cfg.startEp cfg.endEp (Int.ofNat env.totalEpisodes) with
    | error msg =>
      rw [hnr] at hrun
      simp only [Option.some.injEq, Prod.mk.injEq] at hrun
      rw [← hrun.1] at hmem
      simp at hmem
    | ok p =>
      obtain ⟨s, en⟩ := p
      rw [hnr] at hrun
      simp only [Option.some.injEq] at hrun
      cases hel : episodeLoop sched env.sendOk env.numFrames fuel cfg.autoAdvance en
          (episodeRange s en) 0 (initFlags s) with
      | none => rw [hel] at hrun; exact absurd hrun (by simp)
      | some q =>
        obtain ⟨t, f, evs, out⟩ := q
        rw [hel] at hrun
        cases out with
        | sendFail ep fi0 =>
          simp only [Option.some.injEq, Prod.mk.injEq] at hrun
          have hmem2 : Ev.send e fi false ∈ evs := by
            rw [← hrun.1] at hmem
            rcases List.mem_append.mp hmem with h | h
            · exact h
            · exact absurd h (by simp)
          obtain ⟨hout, hlater⟩ := episodeLoop_false_send sched env.sendOk env.numFrames
            fuel cfg.autoAdvance en (episodeRange s en) 0 (initFlags s) t f evs
            (.sendFail ep fi0) (episodeRange_pairwise s en) hel e fi hmem2
          injection hout with h1 h2
          refine ⟨?_, ?_, ?_⟩
          · rw [← hrun.2, h1, h2]
          · intro e2 fi2 ok2 hlt hmem3
            rw [← hrun.1] at hmem3
            rcases List.mem_append.mp hmem3 with h | h
            · exact hlater e2 fi2 ok2 hlt h
            · exact absurd h (by simp)
          · rw [← hrun.1, List.countP_append]
            have hz : evs.countP (fun ev => decide (ev = Ev.disconnect)) = 0 := by
              rw [List.countP_eq_zero]
              intro ev hev
              obtain ⟨e4, -, hshape⟩ := episodeLoop_events sched env.sendOk env.numFrames
                fuel cfg.autoAdvance en (episodeRange s en) 0 (initFlags s) t f evs
                (.sendFail ep fi0) hel ev hev
              rcases hshape with h | ⟨fi4, ok4, h⟩ <;> simp [h]
            rw [hz]
            rfl
        | normal =>
          have hmem2 : Ev.send e fi false ∈ evs := by
            by_cases hs : (applyLines f (sched t)).should_stop
            · simp only [hs, if_true, Option.some.injEq, Prod.mk.injEq] at hrun
              rw [← hrun.1] at hmem
              rcases List.mem_append.mp hmem with h | h
              · exact h
              · exact absurd h (by simp)
            · simp only [hs, Bool.false_eq_true, if_false, Option.some.injEq,
                Prod.mk.injEq] at hrun
              rw [← hrun.1] at hmem
              rcases List.mem_append.mp hmem with h | h
              · exact h
              · exact absurd h (by simp)
          obtain ⟨hout, -⟩ := episodeLoop_false_send sched env.sendOk env.numFrames
            fuel cfg.autoAdvance en (episodeRange s en) 0 (initFlags s) t f evs
            .normal (episodeRange_pairwise s en) hel e fi hmem2
          exact absurd hout (by simp)
  · rw [Bool.not_eq_true] at hc
    simp only [hc, Bool.not_false, if_true, Option.some.injEq, Prod.mk.injEq] at hrun
    rw [← hrun.1] at hmem
    simp at hmem

/-- Witness for C2, Scenario C: 2 episodes of 5 frames, `send_action` raising
at episode 1, frame 3: the run fails with exactly that episode and frame, no
episode-2 send occurs, and `disconnect` is called once. -/
theorem send_failure_halts_run_witness :
    RunResult.failed (.sendFailed 1 3) = RunResult.failed (.sendFailed 1 3) ∧
    Ev.send 2 0 true ∉ scenarioCTrace ∧
    scenarioCTrace.countP (fun ev => decide (ev = Ev.disconnect)) = 1 := by
  have h := send_failure_halts_run (fun _ => []) 1
    ⟨true, 2, fun _ => 5, fun e fi => !(decide (e = 1) && decide (fi = 3))⟩
    ⟨10, 0, 1, true, 0⟩ scenarioCTrace (RunResult.failed (.sendFailed 1 3)) 1 3
    (by decide) (by decide)
  exact ⟨h.1, h.2.1 2 0 true (by decide), h.2.2⟩

/-- Claim C3 (code bug): the `s`/`skip` handler in the listener only breaks
the listener's own read loop: it sets no skip flag, the controller plays
every remaining frame of the current (and every later) episode, and the
listener never resumes — so a subsequent `q` (quit) is dead.  Conjuncts: a
run of 2 episodes of 3 frames receiving `s` mid-episode 0 and `q` right
after still sends all 6 frames and completes; the same run receiving only
`q` at the same read stops after one frame; the `s` handler touches only
`listener_done`; and after `s` the `q` handler is a no-op. -/
theorem skip_only_ends_listener :
    run skipQuitSched 1 ⟨true, 2, fun _ => 3, fun _ _ => true⟩ ⟨10, 0, 1, true, 0⟩ =
      some ([.fetch 0, .send 0 0 true, .send 0 1 true, .send 0 2 true,
             .fetch 1, .send 1 0 true, .send 1 1 true, .send 1 2 true, .disconnect],
            .completed) ∧
    run quitOnlySched 1 ⟨true, 2, fun _ => 3, fun _ _ => true⟩ ⟨10, 0, 1, true, 0⟩ =
      some ([.fetch 0, .send 0 0 true, .disconnect], .stoppedByUser) ∧
    processLine ⟨false, false, false, 0⟩ (.cmd "s") = ⟨false, false, true, 0⟩ ∧
    processLine ⟨false, false, true, 0⟩ (.cmd "q") = ⟨false, false, true, 0⟩ := by
  refine ⟨by decide, by decide, by decide, by decide⟩

/-- Claim C4: `should_stop` is monotone — no listener handler and no step of
the controller ever resets it: any input line keeps it true, any batch of
listener iterations keeps it true, and the episode loop's final shared state
keeps it true. -/
theorem should_stop_never_reverts (l : Line) (ls : List Line) (st : Flags)
    (sched : Nat → List Line) (sendOk : Int → Nat → Bool) (numFrames : Int → Nat)
    (fuel : Nat) (auto : Bool) (endEp : Int) (es : List Int) (t t' : Nat)
    (st' : Flags) (evs : List Ev) (out : LoopOut) :
    (st.should_stop = true → (processLine st l).should_stop = true) ∧
    (st.should_stop = true → (applyLines st ls).should_stop = true) ∧
    (episodeLoop sched sendOk numFrames fuel auto endEp es t st = some (t', st', evs, out) →
      st.should_stop = true → st'.should_stop = true) := by
  refine ⟨?_, ?_, ?_⟩
  · intro h
    rw [processLine_stop_id st l h]
    exact h
  · intro h
    rw [applyLines_stop_id ls st h]
    exact h
  · intro hrun h
    exact episodeLoop_stop_preserved sched sendOk numFrames fuel auto endEp es t t'
      st st' evs out hrun h

/-- Witness for C4 at concrete inputs: a pause toggle and a pause-next batch
leave `should_stop` set, and a one-episode loop from a stopped state keeps it
set. -/
theorem should_stop_never_reverts_witness :
    (processLine ⟨false, true, false, 0⟩ (.cmd "p")).should_stop = true ∧
    (applyLines ⟨false, true, false, 0⟩ [.cmd "p", .cmd "n"]).should_stop = true ∧
    (⟨false, true, false, 0⟩ : Flags).should_stop = true := by
  have h := should_stop_never_reverts (.cmd "p") [.cmd "p", .cmd "n"]
    ⟨false, true, false, 0⟩ (fun _ => []) (fun _ _ => true) (fun _ => 1) 1 true 0 [0] 0 1
    ⟨false, true, false, 0⟩ [] .normal
  exact ⟨h.1 rfl, h.2.1 rfl, h.2.2 (by decide) rfl⟩

/-- Claim C5: the frame scheduler is the pure function
`max(1/fps - elapsed, 0)`: for `fps > 0` and `0 ≤ elapsed < 1/fps` it returns
`1/fps - elapsed`, and for `elapsed ≥ 1/fps` it returns `0` (no catch-up). -/
theorem frame_scheduler_delay (fps elapsed : ℚ) (_hf : 0 < fps) :
    (0 ≤ elapsed → elapsed < 1 / fps → frameDelay fps elapsed = 1 / fps - elapsed) ∧
    (1 / fps ≤ elapsed → frameDelay fps elapsed = 0) := by
  constructor
  · intro h1 h2
    have h3 : (0 : ℚ) ≤ 1 / fps - elapsed := by linarith
    rw [frameDelay, max_eq_left h3]
  · intro h1
    have h3 : 1 / fps - elapsed ≤ (0 : ℚ) := by linarith
    rw [frameDelay, max_eq_right h3]

/-- Witness for C5 at `fps = 10`: an elapsed of 1/20 s yields the remaining
1/20 s, and an elapsed of 1/5 s (overrun) yields zero delay. -/
theorem frame_scheduler_delay_witness :
    frameDelay 10 (1 / 20) = 1 / 10 - 1 / 20 ∧ frameDelay 10 (1 / 5) = 0 := by
  refine ⟨(frame_scheduler_delay 10 (1 / 20) (by norm_num)).1 (by norm_num) (by norm_num),
    (frame_scheduler_delay 10 (1 / 5) (by norm_num)).2 (by norm_num)⟩

/-- Claim C6: when connecting the gateway fails, the failure is fatal before
the episode loop: the trace is empty — no episode fetched, no frame sent,
and in particular no disconnect, since the cleanup step's
`if self.robot and self.robot.is_connected` guard makes disconnection a
no-op for a never-connected gateway — and the run result is the connect
failure. -/
theorem connect_failure_is_fatal_preloop (sched : Nat → List Line) (fuel : Nat)
    (env : Env) (cfg : Cfg) (h : env.connectOk = false) :
    run sched fuel env cfg = some ([], .failed .connectFailed) := by
  simp [run, h]

/-- Witness for C6: a concrete three-episode environment whose gateway fails
to connect produces the empty trace and the connect failure. -/
theorem connect_failure_is_fatal_preloop_witness :
    run (fun _ => []) 1 ⟨false, 3, fun _ => 5, fun _ _ => true⟩ ⟨10, 0, 2, true, 0⟩ =
      some ([], .failed .connectFailed) :=
  connect_failure_is_fatal_preloop (fun _ => []) 1 _ _ rfl

/-- Claim C7: once the controller observes `should_stop` at any checkpoint,
no further send is made and the run terminates: from a stopped state the
frame loop returns with no events, the episode loop breaks with no events,
and the pause-poll and between-episode poll loops exit on their very next
guard read (the stated 100 ms / one-frame latency is exactly this one
poll tick or frame boundary). -/
theorem stop_observed_no_further_send (sched : Nat → List Line)
    (sendOk : Int → Nat → Bool) (numFrames : Int → Nat) (fuel : Nat)
    (auto : Bool) (endEp e : Int) (frames : List Nat) (es : List Int)
    (t : Nat) (st : Flags) (h : st.should_stop = true) :
    ((replayFrames sched sendOk fuel e frames t st).map (fun r => r.2.2.1) = some []) ∧
    ((episodeLoop sched sendOk numFrames fuel auto endEp es t st).map (fun r => r.2.2) =
      some ([], LoopOut.normal)) ∧
    (1 ≤ fuel → pauseWait sched fuel t st = some (t + 1, st)) ∧
    (1 ≤ fuel → betweenWait sched fuel t st = some (t + 1, st)) :=
  ⟨replayFrames_stop sched sendOk fuel e frames t st h,
   episodeLoop_stop sched sendOk numFrames fuel auto endEp es t st h,
   fun hf => pauseWait_stop sched fuel t st h hf,
   fun hf => betweenWait_stop sched fuel t st h hf⟩

/-- Witness for C7 at a concrete stopped state: a two-frame loop emits no
events and the pause poll exits at once. -/
theorem stop_observed_no_further_send_witness :
    ((replayFrames (fun _ => []) (fun _ _ => true) 1 0 [0, 1] 0
        ⟨false, true, false, 0⟩).map (fun r => r.2.2.1) = some []) ∧
    pauseWait (fun _ => []) 1 0 ⟨false, true, false, 0⟩ =
      some (1, ⟨false, true, false, 0⟩) := by
  have h := stop_observed_no_further_send (fun _ => []) (fun _ _ => true) (fun _ => 1) 1
    true 0 0 [0, 1] [0] 0 ⟨false, true, false, 0⟩ rfl
  exact ⟨h.1, h.2.2.1 (by decide)⟩

/-- Counterexample to claim C8 as stated: it is not the case that every
interleaving of the controller's frame-send path with the listener's
reset-send path keeps the two `send_action` calls mutually exclusive — the
interleaving `overlapTrace` starts the reset send while the frame send is in
flight. -/
theorem reset_send_serialization_counterexample :
    ¬ (∀ tr, Interleave frameSendPath resetSendPath tr → sendsExclusive tr = true) := by
  intro hAll
  have h : sendsExclusive overlapTrace = true := by
    refine hAll overlapTrace ?_
    unfold frameSendPath resetSendPath overlapTrace
    exact .left (.right (.left (.right .nil)))
  exact absurd h (by decide)

/-- Claim C8, amended: access to `send_action` is *not* serialized — neither
the controller's frame-send path nor the listener's reset path contains any
lock acquisition, and there is an interleaving in which the reset send of
the home-position target overlaps an in-flight per-frame send. -/
theorem reset_send_no_lock_overlap :
    Interleave frameSendPath resetSendPath overlapTrace ∧
    sendsExclusive overlapTrace = false ∧
    ThreadEv.acquire ∉ frameSendPath ∧ ThreadEv.acquire ∉ resetSendPath := by
  refine ⟨?_, by decide, by decide, by decide⟩
  unfold frameSendPath resetSendPath overlapTrace
  exact .left (.right (.left (.right .nil)))

/-- Claim C9: an input line that is none of the recognized commands
(h/help, p/pause, n/next, s/skip, q/quit, r/reset) leaves every field of the
shared state unchanged and the listener loop running: the handler is the
identity on the state. -/
theorem unrecognized_command_no_state_effect (c : String) (st : Flags)
    (h : c ∉ recognizedCommands) :
    processLine st (.cmd c) = st := by
  simp only [recognizedCommands, List.mem_cons, List.not_mem_nil, or_false, not_or] at h
  obtain ⟨h1, h2, h3, h4, h5, h6, h7, h8, h9, h10, h11, h12⟩ := h
  unfold processLine
  split
  · rfl
  · simp [h1, h2, h3, h4, h5, h6, h7, h8, h9, h10]

/-- Witness for C9: the line `xyz` leaves a concrete paused state
untouched. -/
theorem unrecognized_command_no_state_effect_witness :
    processLine ⟨true, false, false, 0⟩ (.cmd "xyz") = ⟨true, false, false, 0⟩ :=
  unrecognized_command_no_state_effect "xyz" _ (by decide)

/-- Claim C10: episode-range setup normalizes rather than fully validates:
a configured end of -1 selects `total - 1`; an end at or beyond `total` is
silently clamped to `total - 1` (the outcome equals that of configuring
`total - 1`); setup raises exactly when `start ≥ total` or `start` exceeds
the normalized end; and a negative start is never rejected (for any
nonnegative total). -/
theorem episode_range_normalization (s e total : Int) :
    (∀ p, normalizeRange s (-1) total = .ok p → p.2 = total - 1) ∧
    (total ≤ e → normalizeRange s e total = normalizeRange s (total - 1) total) ∧
    (isOkE (normalizeRange s e total) = false ↔
      total ≤ s ∨ (if 0 ≤ e then (if total ≤ e then total - 1 else e) else total - 1) < s) ∧
    (0 ≤ total → s < 0 → isOkE (normalizeRange s e total) = true) := by
  have hce : clampedEnd e total =
      if 0 ≤ e then (if total ≤ e then total - 1 else e) else total - 1 := by
    unfold clampedEnd initialEnd
    split_ifs <;> omega
  refine ⟨?_, ?_, ?_, ?_⟩
  · intro p hp
    have hneg : clampedEnd (-1) total = total - 1 := by
      unfold clampedEnd initialEnd
      split_ifs <;> omega
    unfold normalizeRange at hp
    rw [hneg] at hp
    by_cases ha : total ≤ s
    · rw [if_pos ha] at hp
      exact absurd hp (by simp)
    · rw [if_neg ha] at hp
      by_cases hb : total - 1 < s
      · rw [if_pos hb] at hp
        exact absurd hp (by simp)
      · rw [if_neg hb] at hp
        simp only [Except.ok.injEq] at hp
        rw [← hp]
  · intro h1
    have heq : clampedEnd e total = clampedEnd (total - 1) total := by
      unfold clampedEnd initialEnd
      split_ifs <;> omega
    unfold normalizeRange
    rw [heq]
  · unfold normalizeRange
    rw [hce]
    split_ifs <;> simp [isOkE] <;> omega
  · intro h1 h2
    unfold normalizeRange
    rw [hce]
    split_ifs <;> simp [isOkE] <;> omega

/-- Witness for C10: with 3 total episodes, a configured end of 5 is clamped
(the setup behaves as if 2 had been configured) and a start of -2 is
accepted, while a start of 5 is rejected. -/
theorem episode_range_normalization_witness :
    normalizeRange (-2) 5 3 = normalizeRange (-2) 2 3 ∧
    isOkE (normalizeRange (-2) 5 3) = true ∧
    isOkE (normalizeRange 5 1 3) = false := by
  refine ⟨(episode_range_normalization (-2) 5 3).2.1 (by decide),
    (episode_range_normalization (-2) 5 3).2.2.2 (by decide) (by decide),
    (episode_range_normalization 5 1 3).2.2.1.mpr (Or.inl (by decide))⟩

end Gr00tReplay
